import Mathlib

/-!
# Verification of the dd-benchmark orchestration engine

Shallow embedding of the benchmark orchestration engine of `dd-benchmark`:
the Audit Runner (`src/runner/audit-runner.ts`), the Completion Detector
(the polling loop of `AuditRunner.sendMessage`), the Benchmark Scheduler
(`src/scheduler/benchmark-scheduler.ts`) and the result construction of
`BenchmarkRunner.buildRunResult` (`src/index.ts`).

Remote HTTP calls are modelled by an environment record supplying, for each
call the code makes, whether the response was successful and what data it
carried.  Time is modelled by a millisecond counter advanced exactly by the
`setTimeout` sleeps of the code; network calls themselves are instantaneous
in the model.  JavaScript truthiness of optional strings (`undefined` and
`""` are falsy) is embedded explicitly.
-/

/-! ## String helpers (JS `String.prototype.includes` / `toLowerCase`) -/

/-- Boolean prefix test on character lists. -/
def leadsWith : List Char → List Char → Bool
  | [], _ => true
  | _ :: _, [] => false
  | a :: as, b :: bs => a == b && leadsWith as bs

/-- Boolean contiguous-sublist test: does `pat` occur inside `l`?
Mirrors JS `l.includes(pat)` on strings. -/
def containsSub (pat : List Char) : List Char → Bool
  | [] => pat.isEmpty
  | c :: rest => leadsWith pat (c :: rest) || containsSub pat rest

/-- JS `s.includes(pat)`. -/
def strIncludes (s pat : String) : Bool :=
  containsSub pat.data s.data

/-- JS `s.toLowerCase()` (ASCII, which is all the code compares). -/
def lowerStr (s : String) : String :=
  String.mk (s.data.map Char.toLower)

/-- JS `a || b` for an optional string: `undefined` and `""` are falsy. -/
def jsOrStr (s : Option String) (d : String) : String :=
  match s with
  | none => d
  | some v => if v = "" then d else v

/-! ## Severity normalization (`AuditRunner.normalizeSeverity`) -/

/-- Embeds `AuditRunner.normalizeSeverity` (src/index.ts lines 764–772):

```ts
if (!severity) return 'medium';
const lower = severity.toLowerCase();
if (lower.includes('crit')) return 'critical';
if (lower.includes('high')) return 'high';
if (lower.includes('med')) return 'medium';
if (lower.includes('low')) return 'low';
return 'info';
```

An absent input is `none`; the JS falsiness of `""` is the explicit
emptiness test. -/
def normalizeSeverity (severity : Option String) : String :=
  match severity with
  | none => "medium"
  | some s =>
    if s = "" then "medium"
    else
      let lower := lowerStr s
      if strIncludes lower "crit" then "critical"
      else if strIncludes lower "high" then "high"
      else if strIncludes lower "med" then "medium"
      else if strIncludes lower "low" then "low"
      else "info"

/-- The five severity values of the taxonomy. -/
def severityValues : List String :=
  ["critical", "high", "medium", "low", "info"]

/-! ## Messages and the completion heuristics of `AuditRunner.sendMessage` -/

/-- One element of a message's `content` array (`{ type, text? }`). -/
structure ContentPart where
  type : String
  text : Option String
deriving DecidableEq

/-- One message of the session history (`{ role, content }`). -/
structure Message where
  role : String
  content : List ContentPart
deriving DecidableEq

/-- `messages.filter(m => m.role === 'assistant')`. -/
def assistantMsgs (msgs : List Message) : List Message :=
  msgs.filter (fun m => m.role == "assistant")

/-- The text the polling loop inspects:
`lastMsg.content?.map(c => c.text || '').join('')` of the last
assistant message (no `type` filter here, unlike the final extraction). -/
def loopMsgText (msgs : List Message) : String :=
  match (assistantMsgs msgs).getLast? with
  | some m => String.join (m.content.map (fun c => (c.text.getD "")))
  | none => ""

/-- The "needs more information" test of the loop (case-sensitive):
`msgText.includes('repository URL') || msgText.includes('no repository')
 || msgText.includes('Could you please provide')`. -/
def needsMoreInfo (t : String) : Bool :=
  strIncludes t "repository URL" || strIncludes t "no repository" ||
    strIncludes t "Could you please provide"

/-- The completion keyword test of the loop:
`msgText.toLowerCase()` contains `slither`, `aderyn`, `vulnerabilit`
or `finding`. -/
def analysisPerformed (t : String) : Bool :=
  strIncludes (lowerStr t) "slither" || strIncludes (lowerStr t) "aderyn" ||
    strIncludes (lowerStr t) "vulnerabilit" || strIncludes (lowerStr t) "finding"

/-! ## The Completion Detector's polling loop -/

/-- Environment of one polling wait: the configured overall timeout and,
for each poll number `n` (1-based, the code's `pollCount`), the outcome of
the status call and of the message-history call made at that poll. -/
structure PollEnv where
  timeout : Nat
  statusOk : Nat → Bool
  status : Nat → String
  runningId : Nat → Option String
  msgsOk : Nat → Bool
  msgs : Nat → List Message

/-- Why the polling loop stopped: the `while` guard became false
(`timedOut`), a `break` fired (`completed`), or the fuel ran out
(`fuelOut` — shown unreachable for the fuel used by `waitLoop`). -/
inductive LoopExit
  | timedOut
  | completed
  | fuelOut
deriving DecidableEq

/-- Result of the polling loop: elapsed milliseconds when it stopped,
final `pollCount`, and why it stopped. -/
structure LoopResult where
  elapsed : Nat
  pollCount : Nat
  exit : LoopExit
deriving DecidableEq

/-- Embeds the `while (Date.now() - startTime < timeout)` polling loop of
`AuditRunner.sendMessage` (src/index.ts lines 575–657).  `e` is the elapsed
time in ms (time advances only by the literal `setTimeout` sleeps of the
code: 5000 after a failed status call, 15000 in the "keep waiting"
branches, 10000 otherwise), `n` is `pollCount`.  The `fuel` argument bounds
the recursion; every iteration adds at least 5000 ms, so `waitLoop` below
supplies fuel that can never run out. -/
def pollLoopFuel (env : PollEnv) : Nat → Nat → Nat → LoopResult
  | 0, e, n =>
    if e < env.timeout then ⟨e, n, LoopExit.fuelOut⟩
    else ⟨e, n, LoopExit.timedOut⟩
  | fuel + 1, e, n =>
    if e < env.timeout then
      let n' := n + 1
      if !(env.statusOk n') then
        pollLoopFuel env fuel (e + 5000) n'
      else if env.status n' == "idle" && (env.runningId n').isNone then
        if env.msgsOk n' && !(assistantMsgs (env.msgs n')).isEmpty then
          let t := loopMsgText (env.msgs n')
          if decide (n' < 6) && needsMoreInfo t then
            pollLoopFuel env fuel (e + 15000) n'
          else if analysisPerformed t || decide (12 ≤ n') then
            ⟨e, n', LoopExit.completed⟩
          else
            pollLoopFuel env fuel (e + 15000) n'
        else if decide (n' < 6) then
          pollLoopFuel env fuel (e + 15000) n'
        else
          ⟨e, n', LoopExit.completed⟩
      else
        pollLoopFuel env fuel (e + 10000) n'
    else ⟨e, n, LoopExit.timedOut⟩

/-- The full wait of `sendMessage`: a 10000 ms initial grace sleep before
the first poll, then the polling loop, with fuel `env.timeout` (sufficient,
see `waitLoop_no_fuelOut`). -/
def waitLoop (env : PollEnv) : LoopResult :=
  pollLoopFuel env env.timeout 10000 0

/-! ## Findings and their mapping (`AuditRunner.getFindingsFromProject`) -/

/-- Analysis metadata carried through verbatim from the remote finding. -/
structure AnalysisMetadata where
  process : Option (List String)
  tools : Option (List String)
  methods : Option (List String)
  methodology : Option String
  duration : Option Nat
  severityReasoning : Option String
deriving DecidableEq

/-- The canonical `Finding` shape (src/types.ts), restricted to the fields
the engine reads or writes. -/
structure Finding where
  id : String
  title : String
  severity : String
  description : String
  targets : List String
  source : String
  category : Option String
  file : Option String
  function : Option String
  detector : Option String
  confidence : Option String
  analysis : Option AnalysisMetadata
deriving DecidableEq

/-- `meta` of one record returned by `GET /projects/:id/findings`. -/
structure RemoteFindingMeta where
  id : Option String
  title : Option String
  severity : Option String
  file : Option String
  function : Option String
  category : Option String
  detector : Option String
  confidence : Option String
  analysis : Option AnalysisMetadata
deriving DecidableEq

/-- One record returned by `GET /projects/:id/findings`. -/
structure RemoteFinding where
  meta : RemoteFindingMeta
  content : Option String
deriving DecidableEq

/-- The mapping of `AuditRunner.getFindingsFromProject` (src/index.ts
lines 740–754): `id := f.meta.id || 'unknown'`, `title := f.meta.title ||
'Untitled'`, normalized severity, `description := f.content || ''`,
`targets := f.meta.file ? [f.meta.file] : []`, `source := 'dd_audit'`,
remaining metadata carried through verbatim. -/
def mapRemoteFinding (f : RemoteFinding) : Finding :=
  { id := jsOrStr f.meta.id "unknown"
    title := jsOrStr f.meta.title "Untitled"
    severity := normalizeSeverity f.meta.severity
    description := jsOrStr f.content ""
    targets :=
      match f.meta.file with
      | none => []
      | some fp => if fp = "" then [] else [fp]
    source := "dd_audit"
    category := f.meta.category
    file := f.meta.file
    function := f.meta.function
    detector := f.meta.detector
    confidence := f.meta.confidence
    analysis := f.meta.analysis }

/-! ## The Audit Runner (`AuditRunner.runAudit`) -/

/-- Environment of one full audit: the polling environment plus, for each
of the other remote calls `runAudit` makes, whether the response was
successful and what it carried. -/
structure AuditEnv extends PollEnv where
  createProjectOk : Bool
  ensureContainerOk : Bool
  createSessionOk : Bool
  startChatOk : Bool
  finalMsgsOk : Bool
  finalMsgs : List Message
  findingsOk : Bool
  findingsData : List RemoteFinding

/-- The step at which an audit threw (`throw new Error(...)` sites of
`AuditRunner`). -/
inductive AuditError
  | createProject
  | ensureContainer
  | createSession
  | startChat
  | getMessages
deriving DecidableEq

/-- The final response extraction of `sendMessage` (src/index.ts lines
681–693): last assistant message, concatenating the `text` of parts with
`type === 'text'`. -/
def finalResponse (msgs : List Message) : String :=
  match msgs.reverse.find? (fun m => m.role == "assistant") with
  | none => ""
  | some m =>
    String.join (m.content.map (fun c =>
      if c.type == "text" then c.text.getD "" else ""))

/-- Embeds `AuditRunner.sendMessage`: fails if the `chat/stream` start call
fails; then runs the polling wait (whose result does not affect the
returned value, only timing); then fetches the message history once more,
failing on a non-success response, and returns the text of the last
assistant message (empty if there is none). -/
def sendMessage (env : AuditEnv) : Except AuditError String :=
  if !env.startChatOk then Except.error AuditError.startChat
  else
    let _wait := waitLoop env.toPollEnv
    if !env.finalMsgsOk then Except.error AuditError.getMessages
    else Except.ok (finalResponse env.finalMsgs)

/-- Embeds `AuditRunner.getFindingsFromProject` (src/index.ts lines
706–759): on a non-success response (or thrown error) it logs a warning
and returns the empty list — it does not throw. -/
def getFindingsFromProject (env : AuditEnv) : List Finding :=
  if env.findingsOk then env.findingsData.map mapRemoteFinding else []

/-- Embeds `AuditRunner.runAudit` (src/index.ts lines 390–463): create
project → ensure container → create session → send message (start, wait,
final fetch) → retrieve findings → save results.  A thrown error at any
step aborts the remaining steps; the findings artifact (`saveResults`) is
written exactly when the error-free path reaches it. -/
def runAudit (env : AuditEnv) : Except AuditError (List Finding) :=
  if !env.createProjectOk then Except.error AuditError.createProject
  else if !env.ensureContainerOk then Except.error AuditError.ensureContainer
  else if !env.createSessionOk then Except.error AuditError.createSession
  else
    match sendMessage env with
    | Except.error e => Except.error e
    | Except.ok _ => Except.ok (getFindingsFromProject env)

/-- Whether an audit result is a success. -/
def exceptToBool : Except AuditError (List Finding) → Bool
  | Except.ok _ => true
  | Except.error _ => false

/-- `saveResults` is invoked exactly on the error-free path of `runAudit`,
after finding retrieval: the findings artifact is written iff `runAudit`
succeeds. -/
def artifactWritten (env : AuditEnv) : Bool :=
  exceptToBool (runAudit env)

/-! ## The Benchmark Scheduler (`BenchmarkScheduler.runBenchmark`) -/

/-- A configured project, restricted to the fields the scheduler loop
reads. -/
structure C4Project where
  name : String
  repo : String
deriving DecidableEq

/-- The scheduler's checkpoint state plus, as instrumentation of the claim
"the Audit Runner is invoked", the list `attempted` of project names passed
to `runAudit`, in invocation order. -/
structure SchedState where
  currentProject : Option String
  completedProjects : List String
  failedProjects : List String
  attempted : List String
deriving DecidableEq

/-- `createInitialCheckpoint` (empty checkpoint). -/
def initialCheckpoint : SchedState :=
  { currentProject := none
    completedProjects := []
    failedProjects := []
    attempted := [] }

/-- Embeds the loop of `BenchmarkScheduler.runBenchmark`
(scheduler source, lines 420–472).  `stopFlag i` is the value of the
`shouldStop` flag observed at the loop boundary before the `i`-th list
element (0-based); `auditOk i` is whether the audit attempted at position
`i` succeeds.  Per element: break if the flag is set; skip if the name is
in `completedProjects`; otherwise mark current, invoke the runner
(recorded in `attempted`), append to `completedProjects` on success or to
`failedProjects` on error, clear current, and continue.  The code sets
`currentProject := p.name` while the runner is in flight and clears it to
`null` at the end of the same iteration; since the recursion passes only
the end-of-iteration state, the two assignments compose to `none` in the
per-branch states below. -/
def runBenchmark (auditOk : Nat → Bool) (stopFlag : Nat → Bool) :
    List C4Project → Nat → SchedState → SchedState
  | [], _, st => st
  | p :: rest, i, st =>
    if stopFlag i then st
    else if st.completedProjects.contains p.name then
      runBenchmark auditOk stopFlag rest (i + 1) st
    else if auditOk i then
      runBenchmark auditOk stopFlag rest (i + 1)
        { currentProject := none
          completedProjects := st.completedProjects ++ [p.name]
          failedProjects := st.failedProjects
          attempted := st.attempted ++ [p.name] }
    else
      runBenchmark auditOk stopFlag rest (i + 1)
        { currentProject := none
          completedProjects := st.completedProjects
          failedProjects := st.failedProjects ++ [p.name]
          attempted := st.attempted ++ [p.name] }

/-- The `shouldStop` flag is only ever set during a run (`stop()`), never
cleared, so its observed values are monotone in time. -/
def StopMono (stopFlag : Nat → Bool) : Prop :=
  ∀ i j, i ≤ j → stopFlag i = true → stopFlag j = true

/-! ## Run results (`BenchmarkRunner.buildRunResult`) -/

/-- A `RunResult` (src/types.ts), with the nested `ground_truth`,
`dd_findings` and `metadata` objects flattened into prefixed fields and
`by_severity` as a total count function (a missing key reads as 0,
matching the `(bySeverity[s] || 0)` access). -/
structure RunResult where
  project : String
  timestamp : String
  duration_seconds : Nat
  ground_truth_total : Nat
  ground_truth_by_severity : String → Nat
  ground_truth_findings : List Finding
  dd_findings_total : Nat
  dd_findings_findings : List Finding
  tools_used : List String
  methods_used : List String

/-- `bySeverity[f.severity] = (bySeverity[f.severity] || 0) + 1`. -/
def bumpCount (m : String → Nat) (s : String) : String → Nat :=
  fun k => if k = s then m k + 1 else m k

/-- The severity histogram loop of `buildRunResult`. -/
def countBySeverity (fs : List Finding) : String → Nat :=
  fs.foldl (fun m f => bumpCount m f.severity) (fun _ => 0)

/-- `Set.add` on an insertion-ordered set modelled as a duplicate-free
list. -/
def addUnique (l : List String) (s : String) : List String :=
  if l.contains s then l else l ++ [s]

/-- Per-finding tool collection of `buildRunResult`:
`if (f.detector) toolsUsed.add(f.detector)` then each of
`f.analysis?.tools`. -/
def addFindingTools (acc : List String) (f : Finding) : List String :=
  let acc1 :=
    match f.detector with
    | none => acc
    | some d => if d = "" then acc else addUnique acc d
  match f.analysis with
  | none => acc1
  | some a =>
    match a.tools with
    | none => acc1
    | some ts => ts.foldl addUnique acc1

/-- Per-finding method collection of `buildRunResult`
(`f.analysis?.methods`). -/
def addFindingMethods (acc : List String) (f : Finding) : List String :=
  match f.analysis with
  | none => acc
  | some a =>
    match a.methods with
    | none => acc
    | some ms => ms.foldl addUnique acc

/-- Embeds `BenchmarkRunner.buildRunResult` (src/index.ts lines 197–245).
The wall-clock timestamp and duration are parameters. -/
def buildRunResult (projectName : String) (groundTruth ddFindings : List Finding)
    (duration : Nat) (timestamp : String) : RunResult :=
  { project := projectName
    timestamp := timestamp
    duration_seconds := duration
    ground_truth_total := groundTruth.length
    ground_truth_by_severity := countBySeverity groundTruth
    ground_truth_findings := groundTruth
    dd_findings_total := ddFindings.length
    dd_findings_findings := ddFindings
    tools_used := ddFindings.foldl addFindingTools []
    methods_used := ddFindings.foldl addFindingMethods [] }

/-! ## Concrete test fixtures -/

/-- An assistant message whose text exhibits a completion keyword. -/
def keywordMsg : Message :=
  { role := "assistant"
    content := [{ type := "text", text := some "Ran slither and confirmed 2 findings" }] }

/-- An assistant message whose text exhibits both a needs-more-info marker
("no repository") and completion keywords ("finding"). -/
def ambiguousMsg : Message :=
  { role := "assistant"
    content := [{ type := "text", text := some "There is no repository with findings yet" }] }

/-- A polling environment whose every poll observes the session idle with
`keywordMsg` as history. -/
def keywordPollEnv : PollEnv :=
  { timeout := 20000
    statusOk := fun _ => true
    status := fun _ => "idle"
    runningId := fun _ => none
    msgsOk := fun _ => true
    msgs := fun _ => [keywordMsg] }

/-- A polling environment whose every poll observes the session idle with
`ambiguousMsg` as history, with a 40000 ms timeout (two polls). -/
def ambiguousPollEnv : PollEnv :=
  { keywordPollEnv with
      timeout := 40000
      msgs := fun _ => [ambiguousMsg] }

/-- An audit environment in which every remote call succeeds and returns
empty data, with a zero wait timeout. -/
def baseAuditEnv : AuditEnv :=
  { timeout := 0
    statusOk := fun _ => true
    status := fun _ => "idle"
    runningId := fun _ => none
    msgsOk := fun _ => true
    msgs := fun _ => []
    createProjectOk := true
    ensureContainerOk := true
    createSessionOk := true
    startChatOk := true
    finalMsgsOk := true
    finalMsgs := []
    findingsOk := true
    findingsData := [] }

/-- An audit whose `ensure-container` call returns a non-success
response. -/
def containerFailEnv : AuditEnv :=
  { baseAuditEnv with ensureContainerOk := false }

/-- An audit whose finding-retrieval call returns a non-success response,
every other call succeeding. -/
def findingsFailEnv : AuditEnv :=
  { baseAuditEnv with findingsOk := false }

/-- An audit whose status polls all fail and whose history never contains
an assistant message: the wait reaches the 12000 ms timeout. -/
def timeoutEnv : AuditEnv :=
  { baseAuditEnv with
      timeout := 12000
      statusOk := fun _ => false }

/-- An audit whose first status poll fails and whose second poll observes
the idle session with a keyword message. -/
def flakyEnv : AuditEnv :=
  { baseAuditEnv with
      timeout := 60000
      statusOk := fun n => decide (2 ≤ n)
      msgs := fun _ => [keywordMsg] }

/-- A ground-truth finding of severity `high`. -/
def demoHighFinding : Finding :=
  { id := "H-01", title := "Reentrancy", severity := "high"
    description := "reentrancy in withdraw", targets := ["Vault.sol"]
    source := "ground_truth", category := none, file := none
    function := none, detector := none, confidence := none, analysis := none }

/-- A ground-truth finding of severity `medium`. -/
def demoMedFinding : Finding :=
  { id := "M-01", title := "Oracle staleness", severity := "medium"
    description := "stale price used", targets := ["Oracle.sol"]
    source := "ground_truth", category := none, file := none
    function := none, detector := none, confidence := none, analysis := none }

/-- A DD audit finding. -/
def demoDDFinding : Finding :=
  { id := "dd-1", title := "Reentrancy", severity := "high"
    description := "found by slither", targets := ["Vault.sol"]
    source := "dd_audit", category := none, file := none
    function := none, detector := some "slither", confidence := some "high"
    analysis := none }

/-! ## Theorems -/

theorem normalizeSeverity_total (x : Option String) :
    normalizeSeverity x ∈ severityValues := by
  rcases x with _ | s
  · simp [normalizeSeverity, severityValues]
  · simp only [normalizeSeverity, severityValues]
    repeat' split
    all_goals simp

theorem normalizeSeverity_idem (x : Option String) :
    normalizeSeverity (some (normalizeSeverity x)) = normalizeSeverity x := by
  have h := normalizeSeverity_total x
  simp only [severityValues, List.mem_cons] at h
  rcases h with h | h | h | h | h | h
  case inr.inr.inr.inr.inr => exact absurd h (List.not_mem_nil _)
  all_goals rw [h]; decide

/-- C1 (counterexample): the claim maps every unrecognized input to
`medium`, but `normalizeSeverity` maps the unrecognized non-empty string
`"unrecognized"` to `info`, not `medium`. -/
theorem normalizeSeverity_claim_counterexample :
    normalizeSeverity (some "unrecognized") = "info" ∧
      normalizeSeverity (some "unrecognized") ≠ "medium" := by
  decide

/-- C1 (amended): severity normalization is total (always one of the five
taxonomy values) and idempotent; it matches case-insensitively on the
substrings "crit", "high", "med", "low" in that priority order; an absent
or empty input yields `medium`, while a non-empty unrecognized input
yields `info` (not `medium`). -/
theorem normalizeSeverity_spec :
    (∀ x, normalizeSeverity x ∈ severityValues) ∧
    (∀ x, normalizeSeverity (some (normalizeSeverity x)) = normalizeSeverity x) ∧
    (normalizeSeverity none = "medium" ∧ normalizeSeverity (some "") = "medium") ∧
    (∀ s, strIncludes (lowerStr s) "crit" = true →
      normalizeSeverity (some s) = "critical") ∧
    (∀ s, strIncludes (lowerStr s) "crit" = false →
      strIncludes (lowerStr s) "high" = true →
      normalizeSeverity (some s) = "high") ∧
    (∀ s, strIncludes (lowerStr s) "crit" = false →
      strIncludes (lowerStr s) "high" = false →
      strIncludes (lowerStr s) "med" = true →
      normalizeSeverity (some s) = "medium") ∧
    (∀ s, strIncludes (lowerStr s) "crit" = false →
      strIncludes (lowerStr s) "high" = false →
      strIncludes (lowerStr s) "med" = false →
      strIncludes (lowerStr s) "low" = true →
      normalizeSeverity (some s) = "low") ∧
    (∀ s, s ≠ "" →
      strIncludes (lowerStr s) "crit" = false →
      strIncludes (lowerStr s) "high" = false →
      strIncludes (lowerStr s) "med" = false →
      strIncludes (lowerStr s) "low" = false →
      normalizeSeverity (some s) = "info") := by
  refine ⟨normalizeSeverity_total, normalizeSeverity_idem, ⟨by decide, by decide⟩,
    ?_, ?_, ?_, ?_, ?_⟩
  · intro s hc
    have hne : s ≠ "" := by
      intro he; rw [he] at hc; exact absurd hc (by decide)
    simp [normalizeSeverity, hne, hc]
  · intro s hc hh
    have hne : s ≠ "" := by
      intro he; rw [he] at hh; exact absurd hh (by decide)
    simp [normalizeSeverity, hne, hc, hh]
  · intro s hc hh hm
    have hne : s ≠ "" := by
      intro he; rw [he] at hm; exact absurd hm (by decide)
    simp [normalizeSeverity, hne, hc, hh, hm]
  · intro s hc hh hm hl
    have hne : s ≠ "" := by
      intro he; rw [he] at hl; exact absurd hl (by decide)
    simp [normalizeSeverity, hne, hc, hh, hm, hl]
  · intro s hne hc hh hm hl
    simp [normalizeSeverity, hne, hc, hh, hm, hl]

/-- C1 witness: the amended normalization theorem applied at concrete
inputs, discharging its hypotheses there. -/
theorem normalizeSeverity_spec_witness :
    normalizeSeverity (some "CRITICAL risk") = "critical" ∧
      normalizeSeverity (some "Highly severe") = "high" ∧
      normalizeSeverity (some "bogus") = "info" :=
  ⟨normalizeSeverity_spec.2.2.2.1 "CRITICAL risk" (by decide),
   normalizeSeverity_spec.2.2.2.2.1 "Highly severe" (by decide) (by decide),
   normalizeSeverity_spec.2.2.2.2.2.2.2 "bogus" (by decide) (by decide)
     (by decide) (by decide) (by decide)⟩

theorem pollLoopFuel_no_fuelOut (env : PollEnv) :
    ∀ fuel e n, env.timeout ≤ e + 5000 * fuel →
      (pollLoopFuel env fuel e n).exit ≠ LoopExit.fuelOut := by
  intro fuel
  induction fuel with
  | zero =>
    intro e n h
    simp only [pollLoopFuel]
    have : ¬ e < env.timeout := by omega
    simp [this]
  | succ fuel ih =>
    intro e n h
    simp only [pollLoopFuel]
    split
    · repeat' split
      all_goals first
        | (apply ih; omega)
        | simp
    · simp

theorem waitLoop_no_fuelOut (env : PollEnv) :
    (waitLoop env).exit ≠ LoopExit.fuelOut := by
  apply pollLoopFuel_no_fuelOut
  omega

theorem pollLoopFuel_elapsed_bound (env : PollEnv) :
    ∀ fuel e n, e < env.timeout + 15000 →
      (pollLoopFuel env fuel e n).elapsed < env.timeout + 15000 := by
  intro fuel
  induction fuel with
  | zero =>
    intro e n h
    simp only [pollLoopFuel]
    split <;> simpa
  | succ fuel ih =>
    intro e n h
    simp only [pollLoopFuel]
    split
    · repeat' split
      all_goals first
        | (apply ih; omega)
        | (simp only []; omega)
    · simpa

theorem pollLoopFuel_completed_before_timeout (env : PollEnv) (r : LoopResult) :
    ∀ fuel e n, pollLoopFuel env fuel e n = r →
      r.exit = LoopExit.completed → r.elapsed < env.timeout := by
  intro fuel
  induction fuel with
  | zero =>
    intro e n heq hc
    simp only [pollLoopFuel] at heq
    split at heq <;> (subst heq; simp at hc)
  | succ fuel ih =>
    intro e n heq hc
    simp only [pollLoopFuel] at heq
    split at heq
    case isTrue hlt =>
      repeat' split at heq
      all_goals first
        | (exact ih _ _ heq hc)
        | (subst heq; simpa using hlt)
    case isFalse =>
      subst heq; simp at hc

/-- C6 (counterexample): at poll 1 the session is observed idle with an
assistant message containing a completion keyword ("findings"), yet since
the same text also matches the early-phase needs-more-info guard
("no repository"), the loop keeps waiting and reaches the 40000 ms timeout
instead of returning before it. -/
theorem pollingLoop_keyword_claim_counterexample :
    analysisPerformed (loopMsgText (ambiguousPollEnv.msgs 1)) = true ∧
      ambiguousPollEnv.statusOk 1 = true ∧
      ambiguousPollEnv.status 1 = "idle" ∧
      ambiguousPollEnv.runningId 1 = none ∧
      ambiguousPollEnv.msgsOk 1 = true ∧
      assistantMsgs (ambiguousPollEnv.msgs 1) ≠ [] ∧
      waitLoop ambiguousPollEnv = ⟨40000, 2, LoopExit.timedOut⟩ ∧
      ¬ (waitLoop ambiguousPollEnv).elapsed < ambiguousPollEnv.timeout := by
  decide

/-- C6 (amended): a poll that observes the session idle with an assistant
message containing a completion keyword — and at which the early-phase
needs-more-info guard (`pollCount < 6` and a needs-info marker) does not
fire — terminates the loop at that poll; every completion-detected exit
occurs strictly before the configured timeout; in every other case the
loop stops at most 15000 ms (one maximal sleep interval) past the timeout
boundary, and its fuel never runs out. -/
theorem pollingLoop_timeout_spec :
    (∀ (env : PollEnv) (fuel e n : Nat),
       e < env.timeout →
       env.statusOk (n + 1) = true →
       env.status (n + 1) = "idle" →
       env.runningId (n + 1) = none →
       env.msgsOk (n + 1) = true →
       assistantMsgs (env.msgs (n + 1)) ≠ [] →
       (decide (n + 1 < 6) && needsMoreInfo (loopMsgText (env.msgs (n + 1)))) = false →
       analysisPerformed (loopMsgText (env.msgs (n + 1))) = true →
       pollLoopFuel env (fuel + 1) e n = ⟨e, n + 1, LoopExit.completed⟩) ∧
    (∀ (env : PollEnv) (r : LoopResult) (fuel e n : Nat),
       pollLoopFuel env fuel e n = r → r.exit = LoopExit.completed →
       r.elapsed < env.timeout) ∧
    (∀ env : PollEnv, (waitLoop env).elapsed < env.timeout + 15000) ∧
    (∀ env : PollEnv, (waitLoop env).exit ≠ LoopExit.fuelOut) := by
  refine ⟨?_, ?_, ?_, waitLoop_no_fuelOut⟩
  · intro env fuel e n hlt hs hst hr hm hne hguard hkw
    have hne' : (assistantMsgs (env.msgs (n + 1))).isEmpty = false := by
      cases hmm : assistantMsgs (env.msgs (n + 1)) with
      | nil => exact absurd hmm hne
      | cons a l => rfl
    simp [pollLoopFuel, hlt, hs, hst, hr, hm, hne', hguard, hkw]
  · exact fun env r fuel e n => pollLoopFuel_completed_before_timeout env r fuel e n
  · intro env
    apply pollLoopFuel_elapsed_bound
    omega

/-- C6 witness: the amended polling theorem applied at a concrete
environment whose first poll observes an idle session with a keyword
message: the loop completes at poll 1, before the timeout. -/
theorem pollingLoop_timeout_spec_witness :
    pollLoopFuel keywordPollEnv 1 10000 0 = ⟨10000, 1, LoopExit.completed⟩ ∧
      (10000 : Nat) < keywordPollEnv.timeout ∧
      (waitLoop keywordPollEnv).elapsed < keywordPollEnv.timeout + 15000 :=
  ⟨pollingLoop_timeout_spec.1 keywordPollEnv 0 10000 0 (by decide) (by decide)
      (by decide) (by decide) (by decide) (by decide) (by decide) (by decide),
   by decide,
   pollingLoop_timeout_spec.2.2.1 keywordPollEnv⟩

theorem finalResponse_no_assistant (msgs : List Message)
    (h : ∀ m ∈ msgs, m.role ≠ "assistant") : finalResponse msgs = "" := by
  unfold finalResponse
  have hfind : msgs.reverse.find? (fun m => m.role == "assistant") = none := by
    rw [List.find?_eq_none]
    intro m hm
    simpa using h m (List.mem_reverse.mp hm)
  rw [hfind]

/-- C7: a polling wait that reaches the configured timeout with zero
assistant messages ever observed (none at any poll, none in the final
fetch) makes `sendMessage` return an empty response text rather than
throwing, and `runAudit` still proceeds to the finding-retrieval step,
returning whatever that step yields. -/
theorem timeout_truncates_not_discards :
    ∀ env : AuditEnv,
      (waitLoop env.toPollEnv).exit = LoopExit.timedOut →
      (∀ n, assistantMsgs (env.msgs n) = []) →
      (∀ m ∈ env.finalMsgs, m.role ≠ "assistant") →
      env.startChatOk = true →
      env.finalMsgsOk = true →
      sendMessage env = Except.ok "" ∧
      (env.createProjectOk = true → env.ensureContainerOk = true →
        env.createSessionOk = true →
        runAudit env = Except.ok (getFindingsFromProject env)) := by
  intro env hto hpoll hfin hstart hmsgs
  constructor
  · simp [sendMessage, hstart, hmsgs, finalResponse_no_assistant _ hfin]
  · intro h1 h2 h3
    simp [runAudit, h1, h2, h3, sendMessage, hstart, hmsgs]

/-- C7 witness: the timeout theorem applied at a concrete environment whose
status polls all fail and whose history is empty: the wait times out, the
response is empty, and the (empty) findings are still retrieved. -/
theorem timeout_truncates_not_discards_witness :
    sendMessage timeoutEnv = Except.ok "" ∧ runAudit timeoutEnv = Except.ok [] := by
  have h := timeout_truncates_not_discards timeoutEnv (by decide) (fun _ => rfl)
    (by decide) rfl rfl
  exact ⟨h.1, h.2 rfl rfl rfl⟩

/-- C9: a non-success response from the session-status endpoint does not
abort the wait — the loop continues with the next poll after a 5000 ms
sleep — and `sendMessage` never fails because of status-poll failures:
whenever the chat start and the final message fetch succeed, it returns
the extracted response. -/
theorem flaky_status_tolerated :
    (∀ (env : PollEnv) (fuel e n : Nat),
       e < env.timeout →
       env.statusOk (n + 1) = false →
       pollLoopFuel env (fuel + 1) e n = pollLoopFuel env fuel (e + 5000) (n + 1)) ∧
    (∀ env : AuditEnv, env.startChatOk = true → env.finalMsgsOk = true →
       sendMessage env = Except.ok (finalResponse env.finalMsgs)) := by
  constructor
  · intro env fuel e n hlt hs
    simp [pollLoopFuel, hlt, hs]
  · intro env h1 h2
    simp [sendMessage, h1, h2]

/-- C9 witness: the tolerance theorem applied at a concrete environment
whose first status poll fails: the loop continues to poll 2, and the wait
still returns a successful response. -/
theorem flaky_status_tolerated_witness :
    pollLoopFuel flakyEnv.toPollEnv 3 10000 0 =
        pollLoopFuel flakyEnv.toPollEnv 2 15000 1 ∧
      sendMessage flakyEnv = Except.ok "" :=
  ⟨flaky_status_tolerated.1 flakyEnv.toPollEnv 2 10000 0 (by decide) (by decide),
   flaky_status_tolerated.2 flakyEnv rfl rfl⟩

theorem runBenchmark_failed_mem_mono (auditOk stopFlag : Nat → Bool) :
    ∀ (l : List C4Project) (i : Nat) (st : SchedState) (n : String),
      n ∈ st.failedProjects →
      n ∈ (runBenchmark auditOk stopFlag l i st).failedProjects := by
  intro l
  induction l with
  | nil => intro i st n h; simpa [runBenchmark] using h
  | cons p rest ih =>
    intro i st n h
    simp only [runBenchmark]
    split
    · exact h
    · split
      · exact ih _ _ _ h
      · split
        · exact ih _ _ _ h
        · refine ih _ _ _ ?_
          simpa using Or.inl h

/-- C2 (counterexample): the claim says a non-success response at any of
the seven steps raises an error that aborts the run, but a non-success
response at the finding-retrieval step does not raise: the audit completes
with an empty finding list and the finding artifact is still written. -/
theorem auditRunner_findings_claim_counterexample :
    findingsFailEnv.findingsOk = false ∧
      runAudit findingsFailEnv = Except.ok [] ∧
      artifactWritten findingsFailEnv = true :=
  ⟨rfl, rfl, rfl⟩

/-- C2 (amended): a non-success response at project creation, container
readiness, session creation, instruction dispatch, or the post-wait
message retrieval raises an error that aborts the remaining steps for the
project, with no finding artifact written; in particular an
`ensure-container` failure makes the scheduler record the project in
`failedProjects`.  A non-success response at the finding-retrieval step,
however, does not raise: the audit returns an empty finding list and the
(empty) artifact is still written. -/
theorem auditRunner_step_failure_spec :
    (∀ env : AuditEnv, env.createProjectOk = false →
       runAudit env = Except.error AuditError.createProject ∧
         artifactWritten env = false) ∧
    (∀ env : AuditEnv, env.createProjectOk = true → env.ensureContainerOk = false →
       runAudit env = Except.error AuditError.ensureContainer ∧
         artifactWritten env = false) ∧
    (∀ env : AuditEnv, env.createProjectOk = true → env.ensureContainerOk = true →
       env.createSessionOk = false →
       runAudit env = Except.error AuditError.createSession ∧
         artifactWritten env = false) ∧
    (∀ env : AuditEnv, env.createProjectOk = true → env.ensureContainerOk = true →
       env.createSessionOk = true → env.startChatOk = false →
       runAudit env = Except.error AuditError.startChat ∧
         artifactWritten env = false) ∧
    (∀ env : AuditEnv, env.createProjectOk = true → env.ensureContainerOk = true →
       env.createSessionOk = true → env.startChatOk = true →
       env.finalMsgsOk = false →
       runAudit env = Except.error AuditError.getMessages ∧
         artifactWritten env = false) ∧
    (∀ (env : AuditEnv) (p : C4Project) (rest : List C4Project) (i : Nat)
        (st : SchedState) (sf : Nat → Bool),
       env.ensureContainerOk = false → sf i = false →
       p.name ∉ st.completedProjects →
       p.name ∈ (runBenchmark (fun _ => exceptToBool (runAudit env)) sf
           (p :: rest) i st).failedProjects) ∧
    (∀ env : AuditEnv, env.createProjectOk = true → env.ensureContainerOk = true →
       env.createSessionOk = true → env.startChatOk = true →
       env.finalMsgsOk = true → env.findingsOk = false →
       runAudit env = Except.ok [] ∧ artifactWritten env = true) := by
  refine ⟨?_, ?_, ?_, ?_, ?_, ?_, ?_⟩
  · intro env h1
    simp [runAudit, artifactWritten, exceptToBool, h1]
  · intro env h1 h2
    simp [runAudit, artifactWritten, exceptToBool, h1, h2]
  · intro env h1 h2 h3
    simp [runAudit, artifactWritten, exceptToBool, h1, h2, h3]
  · intro env h1 h2 h3 h4
    simp [runAudit, sendMessage, artifactWritten, exceptToBool, h1, h2, h3, h4]
  · intro env h1 h2 h3 h4 h5
    simp [runAudit, sendMessage, artifactWritten, exceptToBool, h1, h2, h3, h4, h5]
  · intro env p rest i st sf hcont hsf hmem
    have hfail : exceptToBool (runAudit env) = false := by
      cases h1 : env.createProjectOk <;>
        simp [runAudit, exceptToBool, h1, hcont]
    have hcontains : st.completedProjects.contains p.name = false := by
      simpa using hmem
    simp only [runBenchmark, hsf, hcontains, hfail]
    simp only [Bool.false_eq_true, if_false]
    refine runBenchmark_failed_mem_mono _ _ _ _ _ _ ?_
    simp
  · intro env h1 h2 h3 h4 h5 h6
    simp [runAudit, sendMessage, getFindingsFromProject, artifactWritten,
      exceptToBool, h1, h2, h3, h4, h5, h6]

/-- C2 witness: the step-failure theorem applied at concrete environments:
a failing `ensure-container` call aborts the audit with no artifact and the
scheduler records the project as failed; a failing finding-retrieval call
still completes the audit with an empty list. -/
theorem auditRunner_step_failure_spec_witness :
    runAudit containerFailEnv = Except.error AuditError.ensureContainer ∧
      artifactWritten containerFailEnv = false ∧
      "proj" ∈ (runBenchmark (fun _ => exceptToBool (runAudit containerFailEnv))
          (fun _ => false) [{ name := "proj", repo := "o/r" }] 0
          initialCheckpoint).failedProjects ∧
      runAudit findingsFailEnv = Except.ok [] :=
  ⟨(auditRunner_step_failure_spec.2.1 containerFailEnv rfl rfl).1,
   (auditRunner_step_failure_spec.2.1 containerFailEnv rfl rfl).2,
   auditRunner_step_failure_spec.2.2.2.2.2.1 containerFailEnv
     { name := "proj", repo := "o/r" } [] 0 initialCheckpoint (fun _ => false)
     rfl rfl (by simp [initialCheckpoint]),
   (auditRunner_step_failure_spec.2.2.2.2.2.2 findingsFailEnv rfl rfl rfl rfl
     rfl rfl).1⟩

theorem runBenchmark_stopped (auditOk stopFlag : Nat → Bool)
    (l : List C4Project) (i : Nat) (st : SchedState)
    (h : stopFlag i = true) :
    runBenchmark auditOk stopFlag l i st = st := by
  cases l <;> simp [runBenchmark, h]

theorem runBenchmark_append (auditOk stopFlag : Nat → Bool)
    (hmono : StopMono stopFlag) :
    ∀ (l₁ l₂ : List C4Project) (i : Nat) (st : SchedState),
      runBenchmark auditOk stopFlag (l₁ ++ l₂) i st =
        runBenchmark auditOk stopFlag l₂ (i + l₁.length)
          (runBenchmark auditOk stopFlag l₁ i st) := by
  intro l₁
  induction l₁ with
  | nil => intro l₂ i st; simp [runBenchmark]
  | cons p l₁ ih =>
    intro l₂ i st
    rw [List.cons_append]
    by_cases hstop : stopFlag i = true
    · rw [runBenchmark_stopped _ _ _ _ _ hstop,
        runBenchmark_stopped _ _ _ _ _ hstop,
        runBenchmark_stopped _ _ _ _ _ (hmono i (i + (p :: l₁).length) (by omega) hstop)]
    · simp only [runBenchmark, if_neg hstop]
      by_cases hskip : st.completedProjects.contains p.name = true
      · simp only [if_pos hskip]
        rw [ih]
        have harith : i + 1 + l₁.length = i + (p :: l₁).length := by
          simp only [List.length_cons]; omega
        rw [harith]
      · simp only [if_neg hskip]
        by_cases hok : auditOk i = true
        · rw [if_pos hok, if_pos hok, ih]
          have harith : i + 1 + l₁.length = i + (p :: l₁).length := by
            simp only [List.length_cons]; omega
          rw [harith]
        · rw [if_neg hok, if_neg hok, ih]
          have harith : i + 1 + l₁.length = i + (p :: l₁).length := by
            simp only [List.length_cons]; omega
          rw [harith]

/-- C5: once the should-stop flag is observed set at the boundary after a
project `p` (flag monotone, as `stop()` only ever sets it), the run is
identical to the run with everything after `p` dropped — no later project
is ever started — and, if `p` itself was started (flag unset at its
boundary, not skipped), its outcome is recorded in `completedProjects` or
`failedProjects`. -/
theorem scheduler_stop_boundary :
    (∀ (auditOk stopFlag : Nat → Bool) (l₁ : List C4Project) (p : C4Project)
        (l₂ : List C4Project) (st : SchedState),
       StopMono stopFlag →
       stopFlag (l₁.length + 1) = true →
       runBenchmark auditOk stopFlag (l₁ ++ p :: l₂) 0 st =
         runBenchmark auditOk stopFlag (l₁ ++ [p]) 0 st) ∧
    (∀ (auditOk stopFlag : Nat → Bool) (l₁ : List C4Project) (p : C4Project)
        (l₂ : List C4Project) (st : SchedState),
       StopMono stopFlag →
       stopFlag l₁.length = false →
       stopFlag (l₁.length + 1) = true →
       p.name ∉ (runBenchmark auditOk stopFlag l₁ 0 st).completedProjects →
       p.name ∈ (runBenchmark auditOk stopFlag (l₁ ++ p :: l₂) 0 st).completedProjects ∨
         p.name ∈ (runBenchmark auditOk stopFlag (l₁ ++ p :: l₂) 0 st).failedProjects) := by
  constructor
  · intro auditOk stopFlag l₁ p l₂ st hmono hstop
    rw [runBenchmark_append auditOk stopFlag hmono l₁ (p :: l₂) 0 st,
      runBenchmark_append auditOk stopFlag hmono l₁ [p] 0 st]
    simp only [Nat.zero_add]
    simp only [runBenchmark]
    by_cases h0 : stopFlag l₁.length = true
    · rw [if_pos h0, if_pos h0]
    · rw [if_neg h0, if_neg h0]
      by_cases hskip :
          (runBenchmark auditOk stopFlag l₁ 0 st).completedProjects.contains p.name = true
      · rw [if_pos hskip, if_pos hskip,
          runBenchmark_stopped _ _ _ _ _ hstop]
      · rw [if_neg hskip, if_neg hskip]
        by_cases hok : auditOk l₁.length = true
        · rw [if_pos hok, if_pos hok, runBenchmark_stopped _ _ _ _ _ hstop]
        · rw [if_neg hok, if_neg hok, runBenchmark_stopped _ _ _ _ _ hstop]
  · intro auditOk stopFlag l₁ p l₂ st hmono hsf0 hstop hmem
    rw [runBenchmark_append auditOk stopFlag hmono l₁ (p :: l₂) 0 st]
    simp only [Nat.zero_add]
    have hsf0' : ¬ stopFlag l₁.length = true := by simp [hsf0]
    have hskip :
        ¬ (runBenchmark auditOk stopFlag l₁ 0 st).completedProjects.contains p.name = true := by
      simpa using hmem
    simp only [runBenchmark, if_neg hsf0', if_neg hskip]
    by_cases hok : auditOk l₁.length = true
    · rw [if_pos hok, runBenchmark_stopped _ _ _ _ _ hstop]
      left
      simp
    · rw [if_neg hok, runBenchmark_stopped _ _ _ _ _ hstop]
      right
      simp

/-- C5 witness: the stop-boundary theorem applied with a flag set between
positions 1 and 2: the run of three projects equals the run of the first
two, and the in-flight second project is recorded. -/
theorem scheduler_stop_boundary_witness :
    runBenchmark (fun _ => false) (fun i => decide (2 ≤ i))
        ([{ name := "alpha", repo := "o/a" }] ++
          { name := "beta", repo := "o/b" } :: [{ name := "gamma", repo := "o/g" }])
        0 initialCheckpoint =
      runBenchmark (fun _ => false) (fun i => decide (2 ≤ i))
        ([{ name := "alpha", repo := "o/a" }] ++ [{ name := "beta", repo := "o/b" }])
        0 initialCheckpoint ∧
    ("beta" ∈ (runBenchmark (fun _ => false) (fun i => decide (2 ≤ i))
        ([{ name := "alpha", repo := "o/a" }] ++
          { name := "beta", repo := "o/b" } :: [{ name := "gamma", repo := "o/g" }])
        0 initialCheckpoint).completedProjects ∨
      "beta" ∈ (runBenchmark (fun _ => false) (fun i => decide (2 ≤ i))
        ([{ name := "alpha", repo := "o/a" }] ++
          { name := "beta", repo := "o/b" } :: [{ name := "gamma", repo := "o/g" }])
        0 initialCheckpoint).failedProjects) := by
  have hmono : StopMono (fun i => decide (2 ≤ i)) := by
    intro i j hij h
    simp only [decide_eq_true_eq] at h ⊢
    omega
  exact ⟨scheduler_stop_boundary.1 (fun _ => false) (fun i => decide (2 ≤ i))
      [{ name := "alpha", repo := "o/a" }] { name := "beta", repo := "o/b" }
      [{ name := "gamma", repo := "o/g" }] initialCheckpoint hmono (by decide),
    scheduler_stop_boundary.2 (fun _ => false) (fun i => decide (2 ≤ i))
      [{ name := "alpha", repo := "o/a" }] { name := "beta", repo := "o/b" }
      [{ name := "gamma", repo := "o/g" }] initialCheckpoint hmono (by decide)
      (by decide) (by decide)⟩

theorem runBenchmark_partition (auditOk stopFlag : Nat → Bool)
    (hstop : ∀ i, stopFlag i = false) :
    ∀ (l : List C4Project) (i : Nat) (st : SchedState),
      (l.map C4Project.name).Nodup →
      (∀ p ∈ l, p.name ∉ st.completedProjects) →
      (runBenchmark auditOk stopFlag l i st).completedProjects.length +
        (runBenchmark auditOk stopFlag l i st).failedProjects.length =
        st.completedProjects.length + st.failedProjects.length + l.length := by
  intro l
  induction l with
  | nil => intro i st _ _; simp [runBenchmark]
  | cons p rest ih =>
    intro i st hnodup hdisj
    have hsf : ¬ stopFlag i = true := by simp [hstop i]
    have hskip : ¬ st.completedProjects.contains p.name = true := by
      simpa using hdisj p (by simp)
    have hrest : (rest.map C4Project.name).Nodup :=
      (List.nodup_cons.mp (by simpa using hnodup)).2
    have hpnew : p.name ∉ rest.map C4Project.name :=
      (List.nodup_cons.mp (by simpa using hnodup)).1
    simp only [runBenchmark, if_neg hsf, if_neg hskip]
    by_cases hok : auditOk i = true
    · have hdisj' : ∀ q ∈ rest, q.name ∉ st.completedProjects ++ [p.name] := by
        intro q hq hmem
        rcases List.mem_append.mp hmem with hmem | hmem
        · exact hdisj q (List.mem_cons_of_mem _ hq) hmem
        · have hqp : q.name = p.name := by simpa using hmem
          exact hpnew (hqp ▸ List.mem_map_of_mem C4Project.name hq)
      rw [if_pos hok,
        ih (i + 1)
          { currentProject := none
            completedProjects := st.completedProjects ++ [p.name]
            failedProjects := st.failedProjects
            attempted := st.attempted ++ [p.name] } hrest hdisj']
      simp only [List.length_append, List.length_cons, List.length_nil]
      omega
    · have hdisj' : ∀ q ∈ rest, q.name ∉ st.completedProjects := fun q hq =>
        hdisj q (List.mem_cons_of_mem _ hq)
      rw [if_neg hok,
        ih (i + 1)
          { currentProject := none
            completedProjects := st.completedProjects
            failedProjects := st.failedProjects ++ [p.name]
            attempted := st.attempted ++ [p.name] } hrest hdisj']
      simp only [List.length_append, List.length_cons, List.length_nil]
      omega

/-- C3 (counterexample): for a project list with a duplicated name, one
successful attempt makes the later duplicate be skipped, so
`completedProjects.length + failedProjects.length` is 1 while the list has
2 projects. -/
theorem scheduler_partition_claim_counterexample :
    (runBenchmark (fun _ => true) (fun _ => false)
        [{ name := "alpha", repo := "o/a" }, { name := "alpha", repo := "o/a" }] 0
        initialCheckpoint).completedProjects.length +
      (runBenchmark (fun _ => true) (fun _ => false)
        [{ name := "alpha", repo := "o/a" }, { name := "alpha", repo := "o/a" }] 0
        initialCheckpoint).failedProjects.length = 1 ∧
    ([{ name := "alpha", repo := "o/a" }, { name := "alpha", repo := "o/a" }] :
        List C4Project).length = 2 := by
  decide

/-- C3 (amended): for every list of projects with pairwise-distinct names,
running the scheduler loop from an empty checkpoint with no stop request
ends with `completedProjects.length + failedProjects.length` equal to the
number of projects — each project is recorded in exactly one of the two
sets. -/
theorem scheduler_partition_spec :
    ∀ (auditOk stopFlag : Nat → Bool) (projects : List C4Project),
      (∀ i, stopFlag i = false) →
      (projects.map C4Project.name).Nodup →
      (runBenchmark auditOk stopFlag projects 0 initialCheckpoint).completedProjects.length +
        (runBenchmark auditOk stopFlag projects 0 initialCheckpoint).failedProjects.length =
        projects.length := by
  intro auditOk stopFlag projects hstop hnodup
  have h := runBenchmark_partition auditOk stopFlag hstop projects 0 initialCheckpoint
    hnodup (by simp [initialCheckpoint])
  simpa [initialCheckpoint] using h

/-- C3 witness: the partition theorem applied to two distinct projects, the
first succeeding and the second failing: one completed plus one failed
equals two. -/
theorem scheduler_partition_spec_witness :
    (runBenchmark (fun i => decide (i = 0)) (fun _ => false)
        [{ name := "alpha", repo := "o/a" }, { name := "beta", repo := "o/b" }] 0
        initialCheckpoint).completedProjects.length +
      (runBenchmark (fun i => decide (i = 0)) (fun _ => false)
        [{ name := "alpha", repo := "o/a" }, { name := "beta", repo := "o/b" }] 0
        initialCheckpoint).failedProjects.length =
      ([{ name := "alpha", repo := "o/a" }, { name := "beta", repo := "o/b" }] :
        List C4Project).length :=
  scheduler_partition_spec (fun i => decide (i = 0)) (fun _ => false)
    [{ name := "alpha", repo := "o/a" }, { name := "beta", repo := "o/b" }]
    (fun _ => rfl) (by decide)

/-- C4: a project whose name is already in the checkpoint's
`completedProjects` when the loop reaches it is never passed to the Audit
Runner: every runner invocation recorded during the run (beyond those
already recorded) is of a name outside the initial `completedProjects`. -/
theorem scheduler_skips_completed :
    ∀ (auditOk stopFlag : Nat → Bool) (l : List C4Project) (i : Nat)
      (st : SchedState) (pname : String),
      pname ∈ st.completedProjects →
      pname ∈ (runBenchmark auditOk stopFlag l i st).attempted →
      pname ∈ st.attempted := by
  intro auditOk stopFlag l
  induction l with
  | nil => intro i st pname _ ha; simpa [runBenchmark] using ha
  | cons p rest ih =>
    intro i st pname hc ha
    by_cases hsf : stopFlag i = true
    · rwa [runBenchmark_stopped _ _ _ _ _ hsf] at ha
    · by_cases hskip : st.completedProjects.contains p.name = true
      · simp only [runBenchmark, if_neg hsf, if_pos hskip] at ha
        exact ih _ _ _ hc ha
      · have hpn : p.name ∉ st.completedProjects := by simpa using hskip
        simp only [runBenchmark, if_neg hsf, if_neg hskip] at ha
        by_cases hok : auditOk i = true
        · rw [if_pos hok] at ha
          have h2 := ih (i + 1)
            { currentProject := none
              completedProjects := st.completedProjects ++ [p.name]
              failedProjects := st.failedProjects
              attempted := st.attempted ++ [p.name] } pname
            (List.mem_append_left _ hc) ha
          rcases List.mem_append.mp h2 with h | h
          · exact h
          · exfalso
            have hqp : pname = p.name := by simpa using h
            exact hpn (hqp ▸ hc)
        · rw [if_neg hok] at ha
          have h2 := ih (i + 1)
            { currentProject := none
              completedProjects := st.completedProjects
              failedProjects := st.failedProjects ++ [p.name]
              attempted := st.attempted ++ [p.name] } pname hc ha
          rcases List.mem_append.mp h2 with h | h
          · exact h
          · exfalso
            have hqp : pname = p.name := by simpa using h
            exact hpn (hqp ▸ hc)

/-- C4 witness: the skipping theorem applied at a checkpoint already
containing "alpha": the run never invokes the runner for "alpha". -/
theorem scheduler_skips_completed_witness :
    "alpha" ∉ (runBenchmark (fun _ => true) (fun _ => false)
        [{ name := "alpha", repo := "o/a" }] 0
        { currentProject := none, completedProjects := ["alpha"],
          failedProjects := [], attempted := [] }).attempted :=
  fun ha =>
    (by decide : ("alpha" : String) ∉ ([] : List String))
      (scheduler_skips_completed (fun _ => true) (fun _ => false)
        [{ name := "alpha", repo := "o/a" }] 0
        { currentProject := none, completedProjects := ["alpha"],
          failedProjects := [], attempted := [] } "alpha" (by decide) ha)

theorem runBenchmark_counts_mono (auditOk stopFlag : Nat → Bool) :
    ∀ (l : List C4Project) (i : Nat) (st : SchedState) (n : String),
      st.failedProjects.count n ≤
        (runBenchmark auditOk stopFlag l i st).failedProjects.count n ∧
      st.attempted.count n ≤
        (runBenchmark auditOk stopFlag l i st).attempted.count n := by
  intro l
  induction l with
  | nil => intro i st n; simp [runBenchmark]
  | cons p rest ih =>
    intro i st n
    simp only [runBenchmark]
    split
    · exact ⟨Nat.le_refl _, Nat.le_refl _⟩
    · split
      · exact ih _ _ _
      · split
        · constructor
          · exact Nat.le_trans (by simp [List.count_append]) (ih _ _ _).1
          · exact Nat.le_trans (by simp [List.count_append]) (ih _ _ _).2
        · constructor
          · exact Nat.le_trans (by simp [List.count_append]) (ih _ _ _).1
          · exact Nat.le_trans (by simp [List.count_append]) (ih _ _ _).2

/-- C10: a project listed in `failedProjects` but not in
`completedProjects` is not skipped: the scheduler invokes the Audit Runner
for it again, and a renewed failure appends its name to `failedProjects`
once more, without deduplication — both its attempt count and its
failed-entry count strictly grow. -/
theorem scheduler_retries_failed :
    ∀ (auditOk stopFlag : Nat → Bool) (p : C4Project) (rest : List C4Project)
      (i : Nat) (st : SchedState),
      stopFlag i = false →
      p.name ∉ st.completedProjects →
      p.name ∈ st.failedProjects →
      auditOk i = false →
      st.attempted.count p.name + 1 ≤
        (runBenchmark auditOk stopFlag (p :: rest) i st).attempted.count p.name ∧
      st.failedProjects.count p.name + 1 ≤
        (runBenchmark auditOk stopFlag (p :: rest) i st).failedProjects.count p.name := by
  intro auditOk stopFlag p rest i st hsf hnc _hf hok
  have hsf' : ¬ stopFlag i = true := by simp [hsf]
  have hskip : ¬ st.completedProjects.contains p.name = true := by simpa using hnc
  have hok' : ¬ auditOk i = true := by simp [hok]
  simp only [runBenchmark, if_neg hsf', if_neg hskip, if_neg hok']
  constructor
  · refine Nat.le_trans ?_ (runBenchmark_counts_mono auditOk stopFlag rest (i + 1) _ p.name).2
    simp [List.count_append]
  · refine Nat.le_trans ?_ (runBenchmark_counts_mono auditOk stopFlag rest (i + 1) _ p.name).1
    simp [List.count_append]

/-- C10 witness: the retry theorem applied at a checkpoint already holding
one failed entry for "alpha": after a renewed failing attempt the failed
count reaches 2 and the attempt count grows. -/
theorem scheduler_retries_failed_witness :
    (["alpha"] : List String).count "alpha" + 1 ≤
      (runBenchmark (fun _ => false) (fun _ => false)
        [{ name := "alpha", repo := "o/a" }] 0
        { currentProject := none, completedProjects := [],
          failedProjects := ["alpha"], attempted := ["alpha"] }).failedProjects.count
        "alpha" :=
  (scheduler_retries_failed (fun _ => false) (fun _ => false)
    { name := "alpha", repo := "o/a" } [] 0
    { currentProject := none, completedProjects := [],
      failedProjects := ["alpha"], attempted := ["alpha"] }
    rfl (by decide) (by decide) rfl).2

theorem countBySeverity_go :
    ∀ (fs : List Finding) (m : String → Nat) (s : String),
      (fs.foldl (fun m f => bumpCount m f.severity) m) s =
        m s + (fs.filter (fun f => f.severity = s)).length := by
  intro fs
  induction fs with
  | nil => intro m s; simp
  | cons f fs ih =>
    intro m s
    simp only [List.foldl_cons, List.filter_cons]
    rw [ih]
    by_cases h : f.severity = s
    · simp only [bumpCount, h]
      simp
      omega
    · have h' : ¬ s = f.severity := fun hs => h hs.symm
      simp only [bumpCount]
      simp [h, h']

theorem listSumMapAdd (l : List String) (f g : String → Nat) :
    (l.map (fun s => f s + g s)).sum = (l.map f).sum + (l.map g).sum := by
  induction l with
  | nil => simp
  | cons a l ih =>
    simp only [List.map_cons, List.sum_cons, ih]
    omega

theorem severity_ite_sum (x : String) (hx : x ∈ severityValues) :
    (severityValues.map (fun s => if x = s then 1 else 0)).sum = 1 := by
  simp only [severityValues, List.mem_cons] at hx
  rcases hx with h | h | h | h | h | h
  case inr.inr.inr.inr.inr => exact absurd h (List.not_mem_nil _)
  all_goals subst h; decide

theorem sum_counts_eq_length :
    ∀ G : List Finding, (∀ f ∈ G, f.severity ∈ severityValues) →
      (severityValues.map
        (fun s => (G.filter (fun f => f.severity = s)).length)).sum = G.length := by
  intro G
  induction G with
  | nil => intro _; simp
  | cons g G ih =>
    intro hall
    have hg : g.severity ∈ severityValues := hall g (by simp)
    have hG : ∀ f ∈ G, f.severity ∈ severityValues := fun f hf =>
      hall f (by simp [hf])
    have hstep : ∀ s ∈ severityValues,
        ((g :: G).filter (fun f => f.severity = s)).length =
          (fun s => (if g.severity = s then 1 else 0) +
            (G.filter (fun f => f.severity = s)).length) s := by
      intro s _
      simp only [List.filter_cons]
      by_cases h : g.severity = s
      · simp [h]
        omega
      · simp [h]
    rw [List.map_congr_left hstep, listSumMapAdd, ih hG,
      severity_ite_sum _ hg]
    simp [Nat.add_comm]

/-- C8: a run result built from a ground-truth list `G` and a DD finding
list `D` has `ground_truth.total = G.length`, a severity histogram mapping
each severity to exactly the number of findings of `G` with that severity
(whose counts over the five taxonomy values sum to the total whenever the
severities of `G` are taxonomy values), `dd_findings.total = D.length`, and
carries `G` and `D` through unchanged. -/
theorem buildRunResult_spec :
    ∀ (projectName : String) (G D : List Finding) (duration : Nat) (ts : String),
      (buildRunResult projectName G D duration ts).ground_truth_total = G.length ∧
      (∀ s, (buildRunResult projectName G D duration ts).ground_truth_by_severity s =
        (G.filter (fun f => f.severity = s)).length) ∧
      ((∀ f ∈ G, f.severity ∈ severityValues) →
        (severityValues.map
          (buildRunResult projectName G D duration ts).ground_truth_by_severity).sum =
          (buildRunResult projectName G D duration ts).ground_truth_total) ∧
      (buildRunResult projectName G D duration ts).dd_findings_total = D.length ∧
      (buildRunResult projectName G D duration ts).ground_truth_findings = G ∧
      (buildRunResult projectName G D duration ts).dd_findings_findings = D := by
  intro pn G D dur ts
  have hpoint : ∀ s, (buildRunResult pn G D dur ts).ground_truth_by_severity s =
      (G.filter (fun f => f.severity = s)).length := by
    intro s
    have h := countBySeverity_go G (fun _ => 0) s
    simpa [buildRunResult, countBySeverity] using h
  refine ⟨rfl, hpoint, ?_, rfl, rfl, rfl⟩
  intro hall
  have hmap : severityValues.map
      (buildRunResult pn G D dur ts).ground_truth_by_severity =
      severityValues.map (fun s => (G.filter (fun f => f.severity = s)).length) :=
    List.map_congr_left (fun s _ => hpoint s)
  rw [hmap, sum_counts_eq_length G hall]
  rfl

/-- C8 witness: the run-result theorem applied at the demo scenario: two
ground-truth findings (one high, one medium) and one DD finding give
`ground_truth.total = 2`, histogram counts summing to 2, and
`dd_findings.total = 1`. -/
theorem buildRunResult_spec_witness :
    (buildRunResult "demo-proj" [demoHighFinding, demoMedFinding] [demoDDFinding]
      5 "2026-01-01").ground_truth_total = 2 ∧
    (severityValues.map
      (buildRunResult "demo-proj" [demoHighFinding, demoMedFinding] [demoDDFinding]
        5 "2026-01-01").ground_truth_by_severity).sum = 2 ∧
    (buildRunResult "demo-proj" [demoHighFinding, demoMedFinding] [demoDDFinding]
      5 "2026-01-01").dd_findings_total = 1 :=
  ⟨(buildRunResult_spec "demo-proj" [demoHighFinding, demoMedFinding]
      [demoDDFinding] 5 "2026-01-01").1,
   ((buildRunResult_spec "demo-proj" [demoHighFinding, demoMedFinding]
      [demoDDFinding] 5 "2026-01-01").2.2.1 (by decide)),
   (buildRunResult_spec "demo-proj" [demoHighFinding, demoMedFinding]
      [demoDDFinding] 5 "2026-01-01").2.2.2.1⟩
